import Mathlib

/-!
Verification of the stock-market analyser's historical-data parsing and
indicator pipeline (`stock_analyser.py`), as a shallow embedding.

Modelling conventions:
* pandas cells are `Cell` (a numeric value, a raw string, or NaN); a pandas
  numeric series with NaN holes is `List (Option ℚ)` (`none` = NaN).
  Rationals stand in for IEEE doubles; the two places where float special
  values matter (`gain/loss` division producing `inf`/`NaN` in
  `calculate_rsi`) are modelled explicitly in `rsiPointO`.
* A DataFrame is its list of named columns.  `Series.dropna` keeps the
  original (positional) index of each surviving point, so indicator results
  are `List (Nat × ℚ)` of (index, value) pairs.
* `calculate_sma`/`calculate_rsi` return a pair: the result (`none` models
  Python `None`) and the caller's DataFrame after the call, because line
  191/215 of the source assigns `df[column] = pd.to_numeric(...)` in place.
* `get_historical_data` is modelled from the point where the decoded
  "Time Series (Daily)" mapping is in hand (lines 104-125): date-key
  parsing (`pd.to_datetime` raises on a bad key, modelled as `Except.error`),
  per-cell numeric coercion (`errors='coerce'` → `none`), the
  `adjusted_close` copy of `close`, and the ascending sort by date.
* String-to-number parsing models the plain decimal fragment accepted by
  `pd.to_numeric` (optional sign, digits, optional fractional part), which
  covers every literal the provider sends; date parsing models ISO
  `YYYY-MM-DD` calendar-valid dates, the key format of the provider.
-/

namespace StockAnalyser

/-- One pandas cell: a numeric value, a raw string, or NaN. -/
inductive Cell where
  | num (x : ℚ)
  | str (s : String)
  | nan
deriving DecidableEq, Repr

/-- Value of a decimal digit character. -/
def digitVal (c : Char) : Option Nat :=
  if c.isDigit then some (c.toNat - 48) else none

/-- Accumulating decimal parse of a digit list. -/
def parseDigitsAux : Nat → List Char → Option Nat
  | acc, [] => some acc
  | acc, c :: cs =>
    match digitVal c with
    | some d => parseDigitsAux (acc * 10 + d) cs
    | none => none

/-- Parse a non-empty all-digit list as a natural number. -/
def parseDigits : List Char → Option Nat
  | [] => none
  | cs => parseDigitsAux 0 cs

/-- Split a character list on a separator (accumulator of the current
piece, reversed). -/
def splitOnAuxL (sep : Char) : List Char → List Char → List (List Char)
  | [], cur => [cur.reverse]
  | c :: cs, cur =>
    if c = sep then cur.reverse :: splitOnAuxL sep cs []
    else splitOnAuxL sep cs (c :: cur)

/-- Split a character list on a separator character. -/
def splitOnL (sep : Char) (cs : List Char) : List (List Char) := splitOnAuxL sep cs []

/-- Numeric parse of a string, modelling the plain-decimal fragment of
`pd.to_numeric`: optional leading minus, integer part, optional fractional
part.  Anything else (e.g. "N/A") fails. -/
def parseNumeric (s : String) : Option ℚ :=
  let core : List Char → Option ℚ := fun t =>
    match splitOnL '.' t with
    | [a] => (parseDigits a).map (fun n => (n : ℚ))
    | [a, b] =>
      match parseDigits a, parseDigits b with
      | some n, some m => some ((n : ℚ) + (m : ℚ) / (10 : ℚ) ^ b.length)
      | _, _ => none
    | _ => none
  match s.data with
  | '-' :: rest => (core rest).map Neg.neg
  | cs => core cs

/-- `pd.to_numeric(cell, errors='coerce')` on one cell: numbers pass
through, strings are parsed, failures and NaN give NaN (`none`). -/
def coerceCell : Cell → Option ℚ
  | .num x => some x
  | .str s => parseNumeric s
  | .nan => none

/-- The cell stored back by the coercing assignment. -/
def recoerce (c : Cell) : Cell :=
  match coerceCell c with
  | some x => .num x
  | none => .nan

/-- Whether a cell already holds a numeric value. -/
def Cell.isNum : Cell → Bool
  | .num _ => true
  | _ => false

/-- A DataFrame: named columns of cells. -/
structure DataFrame where
  cols : List (String × List Cell)
deriving DecidableEq, Repr

/-- `df.columns`. -/
def DataFrame.columns (df : DataFrame) : List String := df.cols.map (·.1)

/-- `df[column]` (first column of that name; `[]` if absent, which the
guards rule out before any access). -/
def DataFrame.getCol (df : DataFrame) (column : String) : List Cell :=
  ((df.cols.find? (fun c => c.1 == column)).map (·.2)).getD []

/-- Number of rows (length of the index, read off the first column). -/
def DataFrame.nrows (df : DataFrame) : Nat :=
  ((df.cols.head?).map (·.2.length)).getD 0

/-- `df.empty`: true when either axis has length 0. -/
def DataFrame.isEmpty (df : DataFrame) : Bool :=
  df.cols.isEmpty || df.nrows == 0

/-- Effect of `df[column] = pd.to_numeric(df[column], errors='coerce')` on
the frame: every column of that name has its cells coerced. -/
def coerceColumn (df : DataFrame) (column : String) : DataFrame :=
  ⟨df.cols.map (fun c => if c.1 == column then (c.1, c.2.map recoerce) else c)⟩

/-- Sum of an Option-valued series; NaN anywhere poisons the sum. -/
def optSum : List (Option ℚ) → Option ℚ
  | [] => some 0
  | none :: _ => none
  | some x :: rest => (optSum rest).map (fun s => x + s)

/-- Mean of one rolling window (NaN if any member is NaN). -/
def windowMean (ys : List (Option ℚ)) : Option ℚ :=
  (optSum ys).map (fun s => s / (ys.length : ℚ))

/-- `series.rolling(window=w).mean()`: NaN while fewer than `w`
observations exist, otherwise the mean of the `w`-wide slice ending at the
current index. -/
def rollingMean (w : Nat) (xs : List (Option ℚ)) : List (Option ℚ) :=
  (List.range xs.length).map (fun i =>
    if i + 1 < w then none
    else windowMean ((xs.drop (i + 1 - w)).take w))

/-- `series.dropna()` starting from positional index `i`. -/
def dropnaFrom : Nat → List (Option ℚ) → List (Nat × ℚ)
  | _, [] => []
  | i, none :: rest => dropnaFrom (i + 1) rest
  | i, some v :: rest => (i, v) :: dropnaFrom (i + 1) rest

/-- `series.dropna()`, keeping each surviving point's original index. -/
def dropna (xs : List (Option ℚ)) : List (Nat × ℚ) := dropnaFrom 0 xs

/-- `series.diff()`: NaN at index 0, else the difference of consecutive
values (NaN if either neighbour is NaN). -/
def diffL (xs : List (Option ℚ)) : List (Option ℚ) :=
  (List.range xs.length).map (fun i =>
    if i = 0 then none
    else
      match xs.getD i none, xs.getD (i - 1) none with
      | some a, some b => some (a - b)
      | _, _ => none)

/-- `delta.where(delta > 0, 0)`: a NaN delta fails the comparison and is
replaced by 0, exactly like any non-positive delta. -/
def gains (delta : List (Option ℚ)) : List ℚ :=
  delta.map (fun o =>
    match o with
    | some x => if 0 < x then x else 0
    | none => 0)

/-- `-delta.where(delta < 0, 0)`: NaN and non-negative deltas give 0,
negative deltas their magnitude. -/
def losses (delta : List (Option ℚ)) : List ℚ :=
  delta.map (fun o =>
    match o with
    | some x => if x < 0 then -x else 0
    | none => 0)

/-- `100 - 100/(1 + gain/loss)` with float semantics on the rolling means
(both non-negative): loss 0 with positive gain gives `rs = inf` hence 100;
0/0 gives NaN (dropped); otherwise the finite formula. NaN inputs (the
rolling warm-up prefix) stay NaN. -/
def rsiPointO : Option ℚ → Option ℚ → Option ℚ
  | some g, some l =>
    if l = 0 then (if g = 0 then none else some 100)
    else some (100 - 100 / (1 + g / l))
  | _, _ => none

/-- `calculate_sma` (source lines 171-193): validation guards, in-place
numeric coercion of the column, rolling mean, dropna.  Returns the result
(`none` models Python `None`) and the caller's DataFrame after the call. -/
def calculate_sma (df : DataFrame) (window : Int) (column : String) :
    Option (List (Nat × ℚ)) × DataFrame :=
  if df.isEmpty = true ∨ column ∉ df.columns then (none, df)
  else if window ≤ 0 then (none, df)
  else
    let df2 := coerceColumn df column
    (some (dropna (rollingMean window.toNat ((df2.getCol column).map coerceCell))), df2)

/-- The `delta` series of `calculate_rsi` (source line 217), computed on
the coerced column. -/
def rsiDelta (df : DataFrame) (column : String) : List (Option ℚ) :=
  diffL (((coerceColumn df column).getCol column).map coerceCell)

/-- The rolling average gain of `calculate_rsi` (source line 218). -/
def rsiAvgGain (df : DataFrame) (window : Int) (column : String) : List (Option ℚ) :=
  rollingMean window.toNat ((gains (rsiDelta df column)).map some)

/-- The rolling average loss of `calculate_rsi` (source line 219). -/
def rsiAvgLoss (df : DataFrame) (window : Int) (column : String) : List (Option ℚ) :=
  rollingMean window.toNat ((losses (rsiDelta df column)).map some)

/-- `calculate_rsi` (source lines 195-223): validation guards, in-place
numeric coercion, Wilder-style RSI via simple rolling means, dropna.
Returns the result and the caller's DataFrame after the call. -/
def calculate_rsi (df : DataFrame) (window : Int) (column : String) :
    Option (List (Nat × ℚ)) × DataFrame :=
  if df.isEmpty = true ∨ column ∉ df.columns then (none, df)
  else if window ≤ 0 then (none, df)
  else
    (some (dropna (List.zipWith rsiPointO
        (rsiAvgGain df window column) (rsiAvgLoss df window column))),
      coerceColumn df column)

/-- Stated from the spec's words (for comparison against the code):
the numeric values held by a column whose cells all coerce. -/
def numericValues (df : DataFrame) (column : String) : List ℚ :=
  (df.getCol column).map (fun c => (coerceCell c).getD 0)

/-- Stated from the spec's words (for comparison against the code):
the arithmetic mean of the `w` values at indices `i - w + 1` through `i`. -/
def specSliceMean (vals : List ℚ) (w i : Nat) : ℚ :=
  (((vals.drop (i + 1 - w)).take w).sum) / (w : ℚ)

/-- A small concrete frame (closes 1, 2, 3) used to instantiate the
indicator theorems. -/
def exampleFrame : DataFrame := ⟨[("close", [Cell.num 1, Cell.num 2, Cell.num 3])]⟩

/-- A calendar date. -/
structure Date where
  year : Nat
  month : Nat
  day : Nat
deriving DecidableEq, Repr

/-- Gregorian leap-year rule. -/
def isLeapYear (y : Nat) : Bool := (y % 4 == 0 && y % 100 != 0) || y % 400 == 0

/-- Days in a month of a given year. -/
def daysInMonth (y m : Nat) : Nat :=
  if m = 2 then (if isLeapYear y then 29 else 28)
  else if m = 4 ∨ m = 6 ∨ m = 9 ∨ m = 11 then 30
  else 31

/-- Parse an ISO `YYYY-MM-DD` date key, checking calendar validity;
models the per-key behaviour of `pd.to_datetime` on the provider's keys. -/
def parseDate (s : String) : Option Date :=
  match splitOnL '-' s.data with
  | [ys, ms, ds] =>
    match parseDigits ys, parseDigits ms, parseDigits ds with
    | some y, some m, some d =>
      if 1 ≤ m ∧ m ≤ 12 ∧ 1 ≤ d ∧ d ≤ daysInMonth y m then some ⟨y, m, d⟩ else none
    | _, _, _ => none
  | _ => none

/-- Total order key of a date. -/
def dateKey (d : Date) : Nat := d.year * 10000 + d.month * 100 + d.day

/-- One raw bar of the "Time Series (Daily)" payload: the five
numeric-looking string fields (after the cosmetic column rename;
`openv` stands for the source's `open`, a reserved word here). -/
structure RawBar where
  openv : String
  high : String
  low : String
  close : String
  volume : String
deriving DecidableEq, Repr

/-- One parsed trading day (`none` = NaN cell). -/
structure PriceBar where
  date : Date
  openv : Option ℚ
  high : Option ℚ
  low : Option ℚ
  close : Option ℚ
  volume : Option ℚ
  adjusted_close : Option ℚ
deriving DecidableEq, Repr

/-- Build a PriceBar from a parsed date and a raw record: each field is
coerced per-cell, and `adjusted_close` copies `close` (line 122). -/
def rawToBar (d : Date) (r : RawBar) : PriceBar :=
  ⟨d, parseNumeric r.openv, parseNumeric r.high, parseNumeric r.low,
    parseNumeric r.close, parseNumeric r.volume, parseNumeric r.close⟩

/-- Ascending-date order on bars. -/
def barLe (a b : PriceBar) : Prop := dateKey a.date ≤ dateKey b.date

instance : DecidableRel barLe := fun a b => Nat.decLe (dateKey a.date) (dateKey b.date)

instance : IsTotal PriceBar barLe := ⟨fun a b => Nat.le_total (dateKey a.date) (dateKey b.date)⟩

instance : IsTrans PriceBar barLe :=
  ⟨fun _ _ _ hab hbc => Nat.le_trans hab hbc⟩

/-- Failure of the payload-to-series parse. -/
inductive ParseErr where
  | malformedPayload
deriving DecidableEq, Repr

/-- `pd.to_datetime` over all date keys: the whole pass fails if any key
is not a valid date, else every key is replaced by its parsed date. -/
def parseDates : List (String × RawBar) → Option (List (Date × RawBar))
  | [] => some []
  | kr :: rest =>
    match parseDate kr.1, parseDates rest with
    | some d, some rows => some ((d, kr.2) :: rows)
    | _, _ => none

/-- `get_historical_data` (source lines 104-125), from the decoded
"Time Series (Daily)" mapping: parse all date keys (raising aborts the
whole parse), coerce cells per-field, derive `adjusted_close`, sort
ascending by date. -/
def get_historical_data (payload : List (String × RawBar)) :
    Except ParseErr (List PriceBar) :=
  match parseDates payload with
  | none => .error .malformedPayload
  | some rows => .ok (List.insertionSort barLe (rows.map (fun dr => rawToBar dr.1 dr.2)))

/-- A decoded GLOBAL_QUOTE response: the optional "Global Quote" record
(field label, value) and the optional "Error Message". -/
structure QuotePayload where
  globalQuote : Option (List (String × String))
  errorMessage : Option String
deriving DecidableEq, Repr

/-- `get_stock_quote` (source lines 50-56) after a successful request: the
quote record is returned only when present and truthy (non-empty); an
empty record or a missing key yields `None`. -/
def get_stock_quote (p : QuotePayload) : Option (List (String × String)) :=
  match p.globalQuote with
  | some q => if q.isEmpty then none else some q
  | none => none

end StockAnalyser

namespace StockAnalyser

/-- C6: SMA and RSI on an empty series, a missing column, or a
non-positive window return `None` (no output points, no silent default). -/
theorem indicator_invalid_inputs_none (df : DataFrame) (w : Int) (col : String)
    (h : df.isEmpty = true ∨ col ∉ df.columns ∨ w ≤ 0) :
    (calculate_sma df w col).1 = none ∧ (calculate_rsi df w col).1 = none := by
  unfold calculate_sma calculate_rsi
  rcases h with h | h | h
  · rw [if_pos (Or.inl h), if_pos (Or.inl h)]
    exact ⟨rfl, rfl⟩
  · rw [if_pos (Or.inr h), if_pos (Or.inr h)]
    exact ⟨rfl, rfl⟩
  · by_cases hg : df.isEmpty = true ∨ col ∉ df.columns
    · rw [if_pos hg, if_pos hg]
      exact ⟨rfl, rfl⟩
    · rw [if_neg hg, if_neg hg, if_pos h, if_pos h]
      exact ⟨rfl, rfl⟩

/-- Witness for C6 at a concrete empty DataFrame and window 5. -/
theorem indicator_invalid_inputs_none_witness :
    (calculate_sma ⟨[]⟩ 5 "close").1 = none ∧ (calculate_rsi ⟨[]⟩ 5 "close").1 = none :=
  indicator_invalid_inputs_none ⟨[]⟩ 5 "close" (Or.inl (by decide))

/-- C10: a quote payload whose "Global Quote" field is present but an
empty record yields `None`, not an empty quote. -/
theorem quote_empty_record_none (p : QuotePayload) (h : p.globalQuote = some []) :
    get_stock_quote p = none := by
  unfold get_stock_quote
  rw [h]
  rfl

/-- Witness for C10 at a concrete payload. -/
theorem quote_empty_record_none_witness :
    get_stock_quote ⟨some [], none⟩ = none :=
  quote_empty_record_none ⟨some [], none⟩ rfl

/-- If any date key fails to parse, the whole date pass fails. -/
theorem parseDates_eq_none (payload : List (String × RawBar))
    (h : ∃ kr ∈ payload, parseDate kr.1 = none) : parseDates payload = none := by
  induction payload with
  | nil =>
    obtain ⟨kr, hm, _⟩ := h
    cases hm
  | cons kr rest ih =>
    obtain ⟨kr', hm, hp⟩ := h
    rcases List.mem_cons.mp hm with rfl | hm'
    · unfold parseDates
      rw [hp]
    · unfold parseDates
      rw [ih ⟨kr', hm', hp⟩]
      cases parseDate kr.1 <;> rfl

/-- C7: a historical payload with at least one invalid date key makes the
whole parse fail with the malformed-payload error; no partial series. -/
theorem parse_invalid_date_aborts (payload : List (String × RawBar))
    (h : ∃ kr ∈ payload, parseDate kr.1 = none) :
    get_historical_data payload = .error .malformedPayload := by
  unfold get_historical_data
  rw [parseDates_eq_none payload h]

/-- Witness for C7 at a concrete payload with the bad key "not-a-date". -/
theorem parse_invalid_date_aborts_witness :
    get_historical_data [("not-a-date", ⟨"1", "2", "3", "4", "5"⟩)]
      = .error .malformedPayload :=
  parse_invalid_date_aborts [("not-a-date", ⟨"1", "2", "3", "4", "5"⟩)]
    ⟨("not-a-date", ⟨"1", "2", "3", "4", "5"⟩), List.mem_singleton.mpr rfl, by decide⟩

/-- C8: the series returned by `get_historical_data` is sorted ascending
by date, and re-sorting it (the date sort is idempotent) returns it
unchanged. -/
theorem historical_sorted_idempotent (payload : List (String × RawBar))
    (bars : List PriceBar) (h : get_historical_data payload = .ok bars) :
    List.Sorted barLe bars ∧ List.insertionSort barLe bars = bars := by
  unfold get_historical_data at h
  cases hp : parseDates payload with
  | none =>
    rw [hp] at h
    exact Except.noConfusion h
  | some rows =>
    rw [hp] at h
    have hb : List.insertionSort barLe (rows.map fun dr => rawToBar dr.1 dr.2) = bars := by
      injection h
    rw [← hb]
    exact ⟨List.sorted_insertionSort barLe _,
      (List.sorted_insertionSort barLe _).insertionSort_eq⟩

/-- Witness for C8: the spec's two-day example payload, given out of
order, parses to the two bars in ascending date order. -/
theorem historical_sorted_idempotent_witness :
    List.Sorted barLe
        [rawToBar ⟨2024, 1, 1⟩ ⟨"1", "2", "1", "90", "100"⟩,
         rawToBar ⟨2024, 1, 2⟩ ⟨"1", "2", "1", "100", "200"⟩] ∧
      List.insertionSort barLe
        [rawToBar ⟨2024, 1, 1⟩ ⟨"1", "2", "1", "90", "100"⟩,
         rawToBar ⟨2024, 1, 2⟩ ⟨"1", "2", "1", "100", "200"⟩]
      = [rawToBar ⟨2024, 1, 1⟩ ⟨"1", "2", "1", "90", "100"⟩,
         rawToBar ⟨2024, 1, 2⟩ ⟨"1", "2", "1", "100", "200"⟩] :=
  historical_sorted_idempotent
    [("2024-01-02", ⟨"1", "2", "1", "100", "200"⟩),
     ("2024-01-01", ⟨"1", "2", "1", "90", "100"⟩)]
    [rawToBar ⟨2024, 1, 1⟩ ⟨"1", "2", "1", "90", "100"⟩,
     rawToBar ⟨2024, 1, 2⟩ ⟨"1", "2", "1", "100", "200"⟩]
    (by rfl)

/-- If every date key parses, the date pass succeeds, keeps the length,
and pairs each surviving row with its own raw record. -/
theorem parseDates_eq_some (payload : List (String × RawBar))
    (h : ∀ kr ∈ payload, (parseDate kr.1).isSome = true) :
    ∃ rows, parseDates payload = some rows ∧ rows.length = payload.length ∧
      ∀ r ∈ rows, ∃ kr ∈ payload, parseDate kr.1 = some r.1 ∧ r.2 = kr.2 := by
  induction payload with
  | nil =>
    exact ⟨[], rfl, rfl, fun r hr => absurd hr (List.not_mem_nil r)⟩
  | cons kr rest ih =>
    obtain ⟨d, hd⟩ := Option.isSome_iff_exists.mp (h kr (List.mem_cons_self kr rest))
    obtain ⟨rows, hrows, hlen, hmem⟩ :=
      ih (fun kr' hkr' => h kr' (List.mem_cons_of_mem kr hkr'))
    refine ⟨(d, kr.2) :: rows, ?_, ?_, ?_⟩
    · unfold parseDates
      rw [hd, hrows]
    · simp [hlen]
    · intro r hr
      rcases List.mem_cons.mp hr with rfl | hr'
      · exact ⟨kr, List.mem_cons_self kr rest, hd, rfl⟩
      · obtain ⟨kr', hkr', hpd, h2⟩ := hmem r hr'
        exact ⟨kr', List.mem_cons_of_mem kr hkr', hpd, h2⟩

/-- C5: on a payload whose date keys are all valid but in which some
price/volume cells are non-numeric, the parse still succeeds, yields one
bar per date key, and each bar's fields are the per-cell parses of its own
raw record (NaN exactly at the unparsable cells); a per-cell failure never
aborts the whole parse. -/
theorem parse_cell_failures_localized (payload : List (String × RawBar))
    (hdates : ∀ kr ∈ payload, (parseDate kr.1).isSome = true)
    (_hbad : ∃ kr ∈ payload, parseNumeric kr.2.openv = none ∨
      parseNumeric kr.2.high = none ∨ parseNumeric kr.2.low = none ∨
      parseNumeric kr.2.close = none ∨ parseNumeric kr.2.volume = none) :
    ∃ bars, get_historical_data payload = .ok bars ∧
      bars.length = payload.length ∧
      ∀ b ∈ bars, ∃ kr ∈ payload,
        parseDate kr.1 = some b.date ∧
        b.openv = parseNumeric kr.2.openv ∧ b.high = parseNumeric kr.2.high ∧
        b.low = parseNumeric kr.2.low ∧ b.close = parseNumeric kr.2.close ∧
        b.volume = parseNumeric kr.2.volume := by
  obtain ⟨rows, hrows, hlen, hmem⟩ := parseDates_eq_some payload hdates
  refine ⟨List.insertionSort barLe (rows.map fun dr => rawToBar dr.1 dr.2), ?_, ?_, ?_⟩
  · unfold get_historical_data
    rw [hrows]
  · rw [List.length_insertionSort, List.length_map, hlen]
  · intro b hb
    have hb' : b ∈ rows.map (fun dr => rawToBar dr.1 dr.2) :=
      (List.perm_insertionSort barLe _).mem_iff.mp hb
    obtain ⟨dr, hdr, rfl⟩ := List.mem_map.mp hb'
    obtain ⟨kr, hkr, hpd, h2⟩ := hmem dr hdr
    exact ⟨kr, hkr, hpd, by rw [← h2]; rfl, by rw [← h2]; rfl, by rw [← h2]; rfl,
      by rw [← h2]; rfl, by rw [← h2]; rfl⟩

/-- Witness for C5: a two-day payload whose first close is "N/A". -/
theorem parse_cell_failures_localized_witness :
    ∃ bars,
      get_historical_data
          [("2024-01-01", ⟨"1", "2", "1", "N/A", "100"⟩),
           ("2024-01-02", ⟨"1", "2", "1", "3", "200"⟩)]
        = .ok bars ∧
      bars.length =
        [("2024-01-01", (⟨"1", "2", "1", "N/A", "100"⟩ : RawBar)),
         ("2024-01-02", ⟨"1", "2", "1", "3", "200"⟩)].length ∧
      ∀ b ∈ bars, ∃ kr ∈
        [("2024-01-01", (⟨"1", "2", "1", "N/A", "100"⟩ : RawBar)),
         ("2024-01-02", ⟨"1", "2", "1", "3", "200"⟩)],
        parseDate kr.1 = some b.date ∧
        b.openv = parseNumeric kr.2.openv ∧ b.high = parseNumeric kr.2.high ∧
        b.low = parseNumeric kr.2.low ∧ b.close = parseNumeric kr.2.close ∧
        b.volume = parseNumeric kr.2.volume :=
  parse_cell_failures_localized
    [("2024-01-01", ⟨"1", "2", "1", "N/A", "100"⟩),
     ("2024-01-02", ⟨"1", "2", "1", "3", "200"⟩)]
    (by decide)
    ⟨("2024-01-01", ⟨"1", "2", "1", "N/A", "100"⟩), by decide,
      Or.inr (Or.inr (Or.inr (Or.inl (by decide))))⟩

/-- Recoercion leaves an already-numeric cell unchanged. -/
theorem recoerce_eq_self_of_isNum (c : Cell) (h : c.isNum = true) : recoerce c = c := by
  cases c with
  | num x => rfl
  | str s => cases h
  | nan => cases h

/-- The coercing assignment leaves the frame unchanged when every cell of
the designated column is already numeric. -/
theorem coerceColumn_eq_self (df : DataFrame) (col : String)
    (h : ∀ c ∈ df.cols, c.1 = col → ∀ cell ∈ c.2, cell.isNum = true) :
    coerceColumn df col = df := by
  obtain ⟨cols⟩ := df
  simp only [coerceColumn, DataFrame.mk.injEq]
  conv_rhs => rw [← List.map_id cols]
  apply List.map_congr_left
  intro a ha
  by_cases h' : (a.1 == col) = true
  · rw [if_pos h']
    have hcells : a.2.map recoerce = a.2 := by
      conv_rhs => rw [← List.map_id a.2]
      apply List.map_congr_left
      intro cell hcell
      exact recoerce_eq_self_of_isNum cell (h a ha (beq_iff_eq.mp h') cell hcell)
    rw [hcells]
    rfl
  · rw [if_neg h']
    rfl

/-- C4 counterexample: on a frame whose close column holds the numeric
string "100", `calculate_sma` replaces the caller's cell by the coerced
number, so the input DataFrame is mutated, not coerced on a working
copy. -/
theorem indicator_mutation_counterexample :
    (calculate_sma ⟨[("close", [Cell.str "100"])]⟩ 1 "close").2
      ≠ (⟨[("close", [Cell.str "100"])]⟩ : DataFrame) := by
  decide

/-- C4 (amended): the numeric coercion is performed in place on the
caller's DataFrame (a validated call stores the coerced column back, a
rejected call leaves the frame untouched); consequently the caller's
DataFrame is unchanged whenever every cell of the designated column is
already numeric — but not in general. -/
theorem indicator_mutation_amended (df : DataFrame) (w : Int) (col : String)
    (h : ∀ c ∈ df.cols, c.1 = col → ∀ cell ∈ c.2, cell.isNum = true) :
    (calculate_sma df w col).2 = df ∧ (calculate_rsi df w col).2 = df := by
  have hc := coerceColumn_eq_self df col h
  constructor
  · unfold calculate_sma
    by_cases h1 : df.isEmpty = true ∨ col ∉ df.columns
    · rw [if_pos h1]
    · rw [if_neg h1]
      by_cases h2 : w ≤ 0
      · rw [if_pos h2]
      · rw [if_neg h2]
        exact hc
  · unfold calculate_rsi
    by_cases h1 : df.isEmpty = true ∨ col ∉ df.columns
    · rw [if_pos h1]
    · rw [if_neg h1]
      by_cases h2 : w ≤ 0
      · rw [if_pos h2]
      · rw [if_neg h2]
        exact hc

/-- Witness for the amended C4 at an already-numeric frame. -/
theorem indicator_mutation_amended_witness :
    (calculate_sma ⟨[("close", [Cell.num 1, Cell.num 2])]⟩ 1 "close").2
        = (⟨[("close", [Cell.num 1, Cell.num 2])]⟩ : DataFrame) ∧
      (calculate_rsi ⟨[("close", [Cell.num 1, Cell.num 2])]⟩ 1 "close").2
        = (⟨[("close", [Cell.num 1, Cell.num 2])]⟩ : DataFrame) :=
  indicator_mutation_amended ⟨[("close", [Cell.num 1, Cell.num 2])]⟩ 1 "close" (by decide)

/-- Re-coercing an already-coerced cell reads the same value. -/
theorem coerceCell_recoerce (c : Cell) : coerceCell (recoerce c) = coerceCell c := by
  unfold recoerce
  cases hc : coerceCell c with
  | none => rfl
  | some x => rfl

/-- Looking up the designated column after the coercing assignment reads
the recoerced cells of the original column. -/
theorem getCol_coerceColumn (df : DataFrame) (col : String) :
    (coerceColumn df col).getCol col = (df.getCol col).map recoerce := by
  obtain ⟨cols⟩ := df
  unfold coerceColumn DataFrame.getCol
  simp only []
  induction cols with
  | nil => rfl
  | cons a tl ih =>
    by_cases h : (a.1 == col) = true
    · rw [List.map_cons, if_pos h]
      rw [@List.find?_cons_of_pos _ (fun c => c.1 == col) (a.1, a.2.map recoerce) _ h]
      rw [@List.find?_cons_of_pos _ (fun c => c.1 == col) a _ h]
      rfl
    · rw [List.map_cons, if_neg h]
      rw [@List.find?_cons_of_neg _ (fun c => c.1 == col) a
        (List.map (fun c => if (c.1 == col) = true then (c.1, c.2.map recoerce) else c) tl) h]
      rw [@List.find?_cons_of_neg _ (fun c => c.1 == col) a tl h]
      exact ih

/-- Summing a series with no NaN gives the plain sum. -/
theorem optSum_map_some (l : List ℚ) : optSum (l.map some) = some l.sum := by
  induction l with
  | nil => rfl
  | cons x tl ih =>
    rw [List.map_cons, List.sum_cons]
    unfold optSum
    rw [ih]
    rfl

/-- The mean of a NaN-free window is its plain arithmetic mean. -/
theorem windowMean_map_some (l : List ℚ) :
    windowMean (l.map some) = some (l.sum / (l.length : ℚ)) := by
  unfold windowMean
  rw [optSum_map_some, List.length_map]
  rfl

/-- Rolling mean of a NaN-free series: NaN during the warm-up prefix,
then exactly the spec's slice mean. -/
theorem rollingMean_map_some (w : Nat) (vals : List ℚ) :
    rollingMean w (vals.map some)
      = (List.range vals.length).map (fun i =>
          if i + 1 < w then none else some (specSliceMean vals w i)) := by
  unfold rollingMean
  rw [List.length_map]
  apply List.map_congr_left
  intro i hi
  rw [List.mem_range] at hi
  by_cases hc : i + 1 < w
  · rw [if_pos hc, if_pos hc]
  · rw [if_neg hc, if_neg hc]
    rw [← List.map_drop, ← List.map_take, windowMean_map_some]
    unfold specSliceMean
    have hlen : ((vals.drop (i + 1 - w)).take w).length = w := by
      rw [List.length_take, List.length_drop]
      omega
    rw [hlen]

/-- `dropna` of a list of values indexed along `range'` keeps exactly the
non-NaN positions, paired with their values. -/
theorem dropnaFrom_range'_map (n s : Nat) (f : Nat → Option ℚ) :
    dropnaFrom s ((List.range' s n).map f)
      = (List.range' s n).filterMap (fun i => (f i).map (fun v => (i, v))) := by
  induction n generalizing s with
  | zero => rfl
  | succ m ih =>
    rw [List.range'_succ, List.map_cons, List.filterMap_cons]
    cases hf : f s with
    | none =>
      show dropnaFrom (s + 1) _ = _
      exact ih (s + 1)
    | some v =>
      show (s, v) :: dropnaFrom (s + 1) _ = _
      rw [ih (s + 1)]
      rfl

/-- `dropna` of an all-NaN series is empty. -/
theorem dropnaFrom_eq_nil (l : List (Option ℚ)) (s : Nat)
    (h : ∀ o ∈ l, o = none) : dropnaFrom s l = [] := by
  induction l generalizing s with
  | nil => rfl
  | cons o tl ih =>
    have ho := h o (List.mem_cons_self o tl)
    subst ho
    show dropnaFrom (s + 1) tl = []
    exact ih (s + 1) (fun o' ho' => h o' (List.mem_cons_of_mem _ ho'))

/-- A point surviving `dropna` sits at or after the start offset, and the
underlying series holds its value there. -/
theorem mem_dropnaFrom (l : List (Option ℚ)) (s i : Nat) (v : ℚ)
    (h : (i, v) ∈ dropnaFrom s l) : s ≤ i ∧ l[i - s]? = some (some v) := by
  induction l generalizing s with
  | nil => cases h
  | cons o tl ih =>
    cases o with
    | none =>
      obtain ⟨hs, hg⟩ := ih (s + 1) h
      refine ⟨by omega, ?_⟩
      obtain ⟨k, hk⟩ : ∃ k, i - s = k + 1 := ⟨i - (s + 1), by omega⟩
      rw [hk, List.getElem?_cons_succ]
      have : i - (s + 1) = k := by omega
      rw [← this]
      exact hg
    | some x =>
      rcases List.mem_cons.mp h with heq | htl
      · injection heq with h1 h2
        subst h1
        subst h2
        refine ⟨Nat.le_refl i, ?_⟩
        rw [Nat.sub_self, List.getElem?_cons_zero]
      · obtain ⟨hs, hg⟩ := ih (s + 1) htl
        refine ⟨by omega, ?_⟩
        obtain ⟨k, hk⟩ : ∃ k, i - s = k + 1 := ⟨i - (s + 1), by omega⟩
        rw [hk, List.getElem?_cons_succ]
        have : i - (s + 1) = k := by omega
        rw [← this]
        exact hg

/-- Conversely, a defined entry of the series survives `dropna` at its
index. -/
theorem dropnaFrom_mem (l : List (Option ℚ)) (s i : Nat) (v : ℚ)
    (h : l[i]? = some (some v)) : (s + i, v) ∈ dropnaFrom s l := by
  induction l generalizing s i with
  | nil => cases h
  | cons o tl ih =>
    cases i with
    | zero =>
      rw [List.getElem?_cons_zero] at h
      obtain rfl : o = some v := by injection h
      exact List.mem_cons_self _ _
    | succ k =>
      rw [List.getElem?_cons_succ] at h
      have hmem := ih (s + 1) k h
      have harith : s + (k + 1) = (s + 1) + k := by omega
      rw [harith]
      cases o with
      | none => exact hmem
      | some x => exact List.mem_cons_of_mem _ hmem

/-- Every rolling-mean entry is NaN when the window exceeds the series
length. -/
theorem rollingMean_all_none (w : Nat) (xs : List (Option ℚ))
    (h : xs.length < w) : ∀ o ∈ rollingMean w xs, o = none := by
  intro o ho
  obtain ⟨i, hi, rfl⟩ := List.mem_map.mp ho
  rw [List.mem_range] at hi
  rw [if_pos (by omega)]

/-- C1: on a series whose designated column holds `n` numeric values, SMA
with a positive window `w ≤ n` returns exactly `n − w + 1` points, each at
an index `i ≥ w − 1` and equal to the arithmetic mean of the `w` column
values ending at `i`. -/
theorem sma_count_and_mean (df : DataFrame) (w : Nat) (col : String)
    (hne : df.isEmpty = false) (hcol : col ∈ df.columns) (hw : 0 < w)
    (hnum : ∀ c ∈ df.getCol col, (coerceCell c).isSome = true)
    (hn : w ≤ (df.getCol col).length) :
    ∃ pts, (calculate_sma df (w : Int) col).1 = some pts ∧
      pts.length = (df.getCol col).length - w + 1 ∧
      ∀ p ∈ pts, w - 1 ≤ p.1 ∧ p.2 = specSliceMean (numericValues df col) w p.1 := by
  have h1 : ¬(df.isEmpty = true ∨ col ∉ df.columns) := by
    rintro (h | h)
    · rw [hne] at h
      cases h
    · exact h hcol
  have h2 : ¬((w : Int) ≤ 0) := by omega
  have hxs : ((coerceColumn df col).getCol col).map coerceCell
      = (numericValues df col).map some := by
    rw [getCol_coerceColumn, List.map_map]
    unfold numericValues
    rw [List.map_map]
    apply List.map_congr_left
    intro c hc
    show coerceCell (recoerce c) = some ((coerceCell c).getD 0)
    rw [coerceCell_recoerce]
    obtain ⟨x, hx⟩ := Option.isSome_iff_exists.mp (hnum c hc)
    rw [hx]
    rfl
  have hvlen : (numericValues df col).length = (df.getCol col).length :=
    List.length_map _ _
  have hkey : dropna (rollingMean ((w : Int)).toNat
        (((coerceColumn df col).getCol col).map coerceCell))
      = (List.range' (w - 1) ((df.getCol col).length - w + 1)).map
          (fun i => (i, specSliceMean (numericValues df col) w i)) := by
    rw [Int.toNat_natCast, hxs, rollingMean_map_some, hvlen, List.range_eq_range']
    unfold dropna
    rw [dropnaFrom_range'_map]
    have e1 : List.range' 0 (w - 1) ++ List.range' (w - 1) ((df.getCol col).length - w + 1)
        = List.range' 0 ((df.getCol col).length - w + 1 + (w - 1)) := by
      have := List.range'_append 0 (w - 1) ((df.getCol col).length - w + 1) 1
      simpa using this
    have e2 : (df.getCol col).length - w + 1 + (w - 1) = (df.getCol col).length := by
      omega
    conv_lhs => rw [← e2, ← e1]
    rw [List.filterMap_append]
    have hnil : (List.range' 0 (w - 1)).filterMap
        (fun i => ((if i + 1 < w then none else some (specSliceMean (numericValues df col) w i))).map
          (fun v => (i, v))) = [] := by
      rw [List.filterMap_eq_nil_iff]
      intro i hi
      obtain ⟨k, hk, rfl⟩ := List.mem_range'.mp hi
      rw [if_pos (by omega)]
      rfl
    have hmap : (List.range' (w - 1) ((df.getCol col).length - w + 1)).filterMap
        (fun i => ((if i + 1 < w then none else some (specSliceMean (numericValues df col) w i))).map
          (fun v => (i, v))) =
        (List.range' (w - 1) ((df.getCol col).length - w + 1)).map
          (fun i => (i, specSliceMean (numericValues df col) w i)) := by
      rw [List.filterMap_congr (g := fun i => some (i, specSliceMean (numericValues df col) w i)) ?_]
      · exact congrFun (List.filterMap_eq_map _) _
      · intro i hi
        obtain ⟨k, hk, rfl⟩ := List.mem_range'.mp hi
        rw [if_neg (by omega)]
        rfl
    rw [hnil, hmap, List.nil_append]
  refine ⟨(List.range' (w - 1) ((df.getCol col).length - w + 1)).map
      (fun i => (i, specSliceMean (numericValues df col) w i)), ?_, ?_, ?_⟩
  · simp only [calculate_sma, if_neg h1, if_neg h2]
    exact congrArg some hkey
  · rw [List.length_map, List.length_range']
  · intro p hp
    obtain ⟨i, hi, rfl⟩ := List.mem_map.mp hp
    obtain ⟨k, hk, rfl⟩ := List.mem_range'.mp hi
    exact ⟨by omega, rfl⟩

/-- Witness for C1: three numeric closes with window 2 give the two slice
means. -/
theorem sma_count_and_mean_witness :
    ∃ pts, (calculate_sma ⟨[("close", [Cell.num 1, Cell.num 2, Cell.num 3])]⟩ (2 : Nat) "close").1
        = some pts ∧
      pts.length = 2 ∧
      ∀ p ∈ pts, 1 ≤ p.1 ∧
        p.2 = specSliceMean
          (numericValues ⟨[("close", [Cell.num 1, Cell.num 2, Cell.num 3])]⟩ "close") 2 p.1 :=
  sma_count_and_mean ⟨[("close", [Cell.num 1, Cell.num 2, Cell.num 3])]⟩ 2 "close"
    rfl (by decide) (by decide) (by decide) (by decide)

/-- The delta series has the length of its input. -/
theorem length_diffL (xs : List (Option ℚ)) : (diffL xs).length = xs.length := by
  unfold diffL
  rw [List.length_map, List.length_range]

/-- The gain series has the length of the delta series. -/
theorem length_gains (d : List (Option ℚ)) : (gains d).length = d.length :=
  List.length_map _ _

/-- The loss series has the length of the delta series. -/
theorem length_losses (d : List (Option ℚ)) : (losses d).length = d.length :=
  List.length_map _ _

/-- The RSI delta series has one entry per row of the column. -/
theorem length_rsiDelta (df : DataFrame) (col : String) :
    (rsiDelta df col).length = (df.getCol col).length := by
  unfold rsiDelta
  rw [length_diffL, List.length_map, getCol_coerceColumn, List.length_map]

/-- Pointwise: if every left entry is NaN, every RSI point is NaN. -/
theorem zipWith_rsiPointO_none : ∀ (a b : List (Option ℚ)),
    (∀ o ∈ a, o = none) → ∀ o ∈ List.zipWith rsiPointO a b, o = none
  | [], _, _, o, ho => absurd ho (List.not_mem_nil o)
  | _ :: _, [], _, o, ho => absurd ho (List.not_mem_nil o)
  | x :: tl, y :: tlb, h, o, ho => by
    rw [List.zipWith_cons_cons] at ho
    rcases List.mem_cons.mp ho with rfl | ho'
    · rw [h x (List.mem_cons_self x tl)]
      cases y <;> rfl
    · exact zipWith_rsiPointO_none tl tlb
        (fun o' ho'' => h o' (List.mem_cons_of_mem _ ho'')) o ho'

/-- C9: on a non-empty numeric column with a positive window strictly
larger than the series length, SMA and RSI both return the empty series —
not `None` and not an error. -/
theorem indicator_window_exceeds_length_empty (df : DataFrame) (w : Int) (col : String)
    (hne : df.isEmpty = false) (hcol : col ∈ df.columns)
    (_hnum : ∀ c ∈ df.getCol col, (coerceCell c).isSome = true)
    (hpos : 0 < (df.getCol col).length)
    (hwn : ((df.getCol col).length : Int) < w) :
    (calculate_sma df w col).1 = some [] ∧ (calculate_rsi df w col).1 = some [] := by
  have h1 : ¬(df.isEmpty = true ∨ col ∉ df.columns) := by
    rintro (h | h)
    · rw [hne] at h
      cases h
    · exact h hcol
  have h2 : ¬(w ≤ 0) := by omega
  have hlt : (df.getCol col).length < w.toNat := by omega
  have hxslen : (((coerceColumn df col).getCol col).map coerceCell).length
      = (df.getCol col).length := by
    rw [getCol_coerceColumn, List.length_map, List.length_map]
  constructor
  · simp only [calculate_sma, if_neg h1, if_neg h2]
    refine congrArg some ?_
    apply dropnaFrom_eq_nil
    apply rollingMean_all_none
    omega
  · simp only [calculate_rsi, if_neg h1, if_neg h2]
    refine congrArg some ?_
    apply dropnaFrom_eq_nil
    apply zipWith_rsiPointO_none
    apply rollingMean_all_none
    rw [List.length_map, length_gains, length_rsiDelta]
    omega

/-- The rolling mean has one entry per input entry. -/
theorem length_rollingMean (w : Nat) (xs : List (Option ℚ)) :
    (rollingMean w xs).length = xs.length := by
  unfold rollingMean
  rw [List.length_map, List.length_range]

/-- Entry `i` of the rolling mean, in closed form. -/
theorem rollingMean_getElem? (w : Nat) (xs : List (Option ℚ)) (i : Nat)
    (hi : i < xs.length) :
    (rollingMean w xs)[i]?
      = some (if i + 1 < w then none
          else windowMean ((xs.drop (i + 1 - w)).take w)) := by
  unfold rollingMean
  rw [List.getElem?_map, List.getElem?_range hi]
  rfl

/-- A defined rolling-mean entry lies inside the series. -/
theorem rollingMean_index_lt (w : Nat) (xs : List (Option ℚ)) (i : Nat)
    (o : Option ℚ) (h : (rollingMean w xs)[i]? = some o) : i < xs.length := by
  by_contra hni
  rw [List.getElem?_eq_none (by rw [length_rollingMean]; omega)] at h
  cases h

/-- A non-NaN rolling-mean entry can only occur once the window is full. -/
theorem rollingMean_defined_bound (w : Nat) (xs : List (Option ℚ)) (i : Nat)
    (g : ℚ) (h : (rollingMean w xs)[i]? = some (some g)) : w ≤ i + 1 := by
  have hi := rollingMean_index_lt w xs i _ h
  rw [rollingMean_getElem? w xs i hi] at h
  injection h with h
  by_cases hc : i + 1 < w
  · rw [if_pos hc] at h
    cases h
  · omega

/-- The delta series is NaN at index 0. -/
theorem diffL_getElem?_zero (ys : List (Option ℚ)) (h : 0 < ys.length) :
    (diffL ys)[0]? = some none := by
  unfold diffL
  rw [List.getElem?_map, List.getElem?_range h]
  rfl

/-- A list whose head is known takes to a singleton. -/
theorem take_one_of_getElem? (l : List (Option ℚ)) (a : Option ℚ)
    (h : l[0]? = some a) : l.take 1 = [a] := by
  cases l with
  | nil => cases h
  | cons x tl =>
    rw [List.getElem?_cons_zero] at h
    injection h with h
    rw [← h]
    rfl

/-- A NaN-free sum of entries drawn from a non-negative series is
non-negative. -/
theorem optSum_nonneg : ∀ (ys : List (Option ℚ)),
    (∀ o ∈ ys, ∀ x, o = some x → 0 ≤ x) → ∀ s, optSum ys = some s → 0 ≤ s
  | [], _, s, h => by
    injection h with h
    rw [← h]
  | none :: _, _, s, h => by cases h
  | some x :: tl, hys, s, h => by
    unfold optSum at h
    cases hs : optSum tl with
    | none =>
      rw [hs] at h
      cases h
    | some t =>
      rw [hs] at h
      injection h with h
      have hx : 0 ≤ x := hys (some x) (List.mem_cons_self _ _) x rfl
      have ht : 0 ≤ t :=
        optSum_nonneg tl (fun o ho x' hx' => hys o (List.mem_cons_of_mem _ ho) x' hx') t hs
      rw [← h]
      exact add_nonneg hx ht

/-- Every gain is non-negative. -/
theorem gains_nonneg (d : List (Option ℚ)) : ∀ x ∈ gains d, 0 ≤ x := by
  intro x hx
  obtain ⟨o, ho, rfl⟩ := List.mem_map.mp hx
  cases o with
  | none => exact le_refl 0
  | some y =>
    show (0 : ℚ) ≤ if 0 < y then y else 0
    by_cases hy : 0 < y
    · rw [if_pos hy]
      exact le_of_lt hy
    · rw [if_neg hy]

/-- Every loss is non-negative. -/
theorem losses_nonneg (d : List (Option ℚ)) : ∀ x ∈ losses d, 0 ≤ x := by
  intro x hx
  obtain ⟨o, ho, rfl⟩ := List.mem_map.mp hx
  cases o with
  | none => exact le_refl 0
  | some y =>
    show (0 : ℚ) ≤ if y < 0 then -y else 0
    by_cases hy : y < 0
    · rw [if_pos hy]
      linarith
    · rw [if_neg hy]

/-- A defined rolling mean of a non-negative NaN-free series is
non-negative. -/
theorem rollingMean_nonneg (w : Nat) (vals : List ℚ)
    (hvals : ∀ x ∈ vals, 0 ≤ x) (i : Nat) (g : ℚ)
    (h : (rollingMean w (vals.map some))[i]? = some (some g)) : 0 ≤ g := by
  have hi := rollingMean_index_lt w _ i _ h
  rw [rollingMean_getElem? w _ i hi] at h
  injection h with h
  by_cases hc : i + 1 < w
  · rw [if_pos hc] at h
    cases h
  · rw [if_neg hc] at h
    unfold windowMean at h
    cases hs : optSum (((vals.map some).drop (i + 1 - w)).take w) with
    | none =>
      rw [hs] at h
      cases h
    | some s =>
      rw [hs] at h
      injection h with h
      have hmem : ∀ o ∈ ((vals.map some).drop (i + 1 - w)).take w, ∀ x, o = some x → 0 ≤ x := by
        intro o ho x hox
        have ho' : o ∈ vals.map some :=
          List.drop_subset _ _ (List.take_subset _ _ ho)
        obtain ⟨y, hy, hoy⟩ := List.mem_map.mp ho'
        have : x = y := by
          rw [hox] at hoy
          injection hoy with hoy
          exact hoy.symm
        rw [this]
        exact hvals y hy
      have hs0 : 0 ≤ s := optSum_nonneg _ hmem s hs
      rw [← h]
      exact div_nonneg hs0 (by positivity)

/-- The RSI formula on defined non-negative averages stays within
[0, 100]. -/
theorem rsiPointO_bounds (g l v : ℚ) (hg : 0 ≤ g) (hl : 0 ≤ l)
    (h : rsiPointO (some g) (some l) = some v) : 0 ≤ v ∧ v ≤ 100 := by
  replace h : (if l = 0 then (if g = 0 then none else some (100 : ℚ))
      else some (100 - 100 / (1 + g / l))) = some v := h
  by_cases hl0 : l = 0
  · rw [if_pos hl0] at h
    by_cases hg0 : g = 0
    · rw [if_pos hg0] at h
      cases h
    · rw [if_neg hg0] at h
      injection h with h
      rw [← h]
      norm_num
  · rw [if_neg hl0] at h
    injection h with h
    have hlpos : 0 < l := lt_of_le_of_ne hl (Ne.symm hl0)
    have hr : 0 ≤ g / l := div_nonneg hg (le_of_lt hlpos)
    have hq1 : 100 / (1 + g / l) ≤ 100 := div_le_self (by norm_num) (by linarith)
    have hqpos : 0 < 100 / (1 + g / l) := div_pos (by norm_num) (by linarith)
    rw [← h]
    constructor <;> linarith

/-- Zero average loss with positive average gain saturates RSI to 100. -/
theorem rsiPointO_saturate (g : ℚ) (hg : 0 < g) :
    rsiPointO (some g) (some 0) = some 100 := by
  show (if (0 : ℚ) = 0 then (if g = 0 then none else some (100 : ℚ))
      else some (100 - 100 / (1 + g / 0))) = some 100
  rw [if_pos rfl, if_neg (ne_of_gt hg)]

/-- A successful `calculate_rsi` returns exactly the dropna of the
pointwise RSI of the two rolling averages. -/
theorem calculate_rsi_some (df : DataFrame) (w : Int) (col : String)
    (pts : List (Nat × ℚ)) (h : (calculate_rsi df w col).1 = some pts) :
    pts = dropna (List.zipWith rsiPointO (rsiAvgGain df w col) (rsiAvgLoss df w col)) := by
  unfold calculate_rsi at h
  by_cases h1 : df.isEmpty = true ∨ col ∉ df.columns
  · rw [if_pos h1] at h
    exact absurd h (by simp)
  · rw [if_neg h1] at h
    by_cases h2 : w ≤ 0
    · rw [if_pos h2] at h
      exact absurd h (by simp)
    · rw [if_neg h2] at h
      have h' : some (dropna (List.zipWith rsiPointO (rsiAvgGain df w col)
          (rsiAvgLoss df w col))) = some pts := h
      injection h' with h'
      exact h'.symm

/-- C3: every value in the series returned by `calculate_rsi` lies in
[0, 100]; and wherever the rolling average loss is 0 while the rolling
average gain is positive, the returned point is exactly 100. -/
theorem rsi_bounds (df : DataFrame) (w : Int) (col : String) (pts : List (Nat × ℚ))
    (h : (calculate_rsi df w col).1 = some pts) :
    (∀ p ∈ pts, 0 ≤ p.2 ∧ p.2 ≤ 100) ∧
    (∀ i g, (rsiAvgGain df w col)[i]? = some (some g) → 0 < g →
      (rsiAvgLoss df w col)[i]? = some (some 0) → (i, (100 : ℚ)) ∈ pts) := by
  have hpts := calculate_rsi_some df w col pts h
  constructor
  · intro p hp
    obtain ⟨i, v⟩ := p
    rw [hpts] at hp
    obtain ⟨-, hg⟩ := mem_dropnaFrom _ 0 i v hp
    rw [Nat.sub_zero, List.getElem?_zipWith] at hg
    rcases hga : (rsiAvgGain df w col)[i]? with _ | gOpt
    · rw [hga] at hg
      rcases hgb : (rsiAvgLoss df w col)[i]? with _ | lOpt <;> rw [hgb] at hg <;>
        exact absurd hg (by simp)
    · rw [hga] at hg
      rcases hgb : (rsiAvgLoss df w col)[i]? with _ | lOpt
      · rw [hgb] at hg
        exact absurd hg (by simp)
      · rw [hgb] at hg
        have hg2 : rsiPointO gOpt lOpt = some v := by
          have h' : some (rsiPointO gOpt lOpt) = some (some v) := hg
          injection h'
        rcases gOpt with _ | g
        · rw [show rsiPointO none lOpt = none from by cases lOpt <;> rfl] at hg2
          cases hg2
        rcases lOpt with _ | l
        · rw [show rsiPointO (some g) none = none from rfl] at hg2
          cases hg2
        have hgn : 0 ≤ g :=
          rollingMean_nonneg w.toNat (gains (rsiDelta df col)) (gains_nonneg _) i g hga
        have hln : 0 ≤ l :=
          rollingMean_nonneg w.toNat (losses (rsiDelta df col)) (losses_nonneg _) i l hgb
        exact rsiPointO_bounds g l v hgn hln hg2
  · intro i g hga hgpos hgl
    have hz : (List.zipWith rsiPointO (rsiAvgGain df w col) (rsiAvgLoss df w col))[i]?
        = some (some 100) := by
      rw [List.getElem?_zipWith, hga, hgl]
      show some (rsiPointO (some g) (some 0)) = some (some 100)
      rw [rsiPointO_saturate g hgpos]
    have hmem := dropnaFrom_mem _ 0 i 100 hz
    rw [hpts]
    simpa using hmem

/-- Concrete evaluation of `calculate_rsi` on closes 1, 2, 3 with window
2: the output holds points at indices 1 and 2, both saturated at 100. -/
theorem rsi_example_eval :
    (calculate_rsi exampleFrame 2 "close").1 = some [(1, 100), (2, 100)] := by
  have h1 : ¬(exampleFrame.isEmpty = true ∨ "close" ∉ exampleFrame.columns) := by decide
  have h2 : ¬((2 : Int) ≤ 0) := by decide
  have e2 : rsiDelta exampleFrame "close" = [none, some 1, some 1] := by
    show [none, some ((2 : ℚ) - 1), some ((3 : ℚ) - 2)] = [none, some 1, some 1]
    norm_num
  have e5 : rsiAvgGain exampleFrame 2 "close" = [none, some (1 / 2), some 1] := by
    unfold rsiAvgGain
    rw [e2]
    show [none,
        some ((0 + ((if (0 : ℚ) < 1 then (1 : ℚ) else 0) + 0)) / ((2 : Nat) : ℚ)),
        some (((if (0 : ℚ) < 1 then (1 : ℚ) else 0)
          + ((if (0 : ℚ) < 1 then (1 : ℚ) else 0) + 0)) / ((2 : Nat) : ℚ))]
      = [none, some (1 / 2), some 1]
    norm_num
  have e6 : rsiAvgLoss exampleFrame 2 "close" = [none, some 0, some 0] := by
    unfold rsiAvgLoss
    rw [e2]
    show [none,
        some ((0 + ((if (1 : ℚ) < 0 then -(1 : ℚ) else 0) + 0)) / ((2 : Nat) : ℚ)),
        some (((if (1 : ℚ) < 0 then -(1 : ℚ) else 0)
          + ((if (1 : ℚ) < 0 then -(1 : ℚ) else 0) + 0)) / ((2 : Nat) : ℚ))]
      = [none, some 0, some 0]
    norm_num
  simp only [calculate_rsi, if_neg h1, if_neg h2]
  rw [e5, e6]
  show some (dropnaFrom 0
      [none, rsiPointO (some (1 / 2)) (some 0), rsiPointO (some 1) (some 0)]) = _
  rw [rsiPointO_saturate (1 / 2) (by norm_num), rsiPointO_saturate 1 (by norm_num)]
  rfl

/-- Witness for C3: the bounds hold for the first point of the RSI of
closes 1, 2, 3 with window 2. -/
theorem rsi_bounds_witness : 0 ≤ (100 : ℚ) ∧ (100 : ℚ) ≤ 100 :=
  (rsi_bounds exampleFrame 2 "close" [(1, 100), (2, 100)] rsi_example_eval).1
    (1, 100) (List.mem_cons_self _ _)

/-- C2 counterexample: with numeric closes 1, 2, 3 and window 2, the RSI
output's first point sits at index 1 = w − 1, strictly smaller than
w = 2, because `delta.where(delta > 0, 0)` maps the undefined first delta
to a zero gain (and loss), so the rolling averages are already defined at
index w − 1. -/
theorem rsi_first_index_counterexample :
    (calculate_rsi exampleFrame 2 "close").1
        = some [(1, 100), (2, 100)] ∧ (1 : Nat) < 2 :=
  ⟨rsi_example_eval, by norm_num⟩

/-- A successful `calculate_rsi` implies the window was positive. -/
theorem calculate_rsi_guard_pos (df : DataFrame) (w : Int) (col : String)
    (pts : List (Nat × ℚ)) (h : (calculate_rsi df w col).1 = some pts) : 0 < w := by
  by_contra hw
  unfold calculate_rsi at h
  by_cases h1 : df.isEmpty = true ∨ col ∉ df.columns
  · rw [if_pos h1] at h
    exact absurd h (by simp)
  · rw [if_neg h1, if_pos (by omega)] at h
    exact absurd h (by simp)

/-- A window-1 rolling mean at index 0 over a series starting with 0 is
0. -/
theorem rollingMean_zero_index (w : Nat) (xs : List (Option ℚ)) (g : ℚ)
    (hx0 : xs[0]? = some (some 0)) (hw : w = 1)
    (h : (rollingMean w xs)[0]? = some (some g)) : g = 0 := by
  subst hw
  have hlen : 0 < xs.length := by
    cases xs with
    | nil => cases hx0
    | cons a tl => exact Nat.succ_pos _
  rw [rollingMean_getElem? 1 xs 0 hlen] at h
  injection h with h
  rw [if_neg (by omega)] at h
  rw [show (0 + 1 - 1) = 0 from rfl, List.drop_zero, take_one_of_getElem? xs _ hx0] at h
  replace h : some ((0 + 0 : ℚ) / (([some (0 : ℚ)].length : Nat) : ℚ)) = some g := h
  injection h with h
  rw [← h]
  norm_num

/-- The gain series starts with 0 (the first delta is NaN, and the
`where` step maps it to 0). -/
theorem gains_map_some_zero (df : DataFrame) (col : String)
    (h : 0 < (df.getCol col).length) :
    ((gains (rsiDelta df col)).map some)[0]? = some (some 0) := by
  have hd : (rsiDelta df col)[0]? = some none := by
    unfold rsiDelta
    apply diffL_getElem?_zero
    rw [List.length_map, getCol_coerceColumn, List.length_map]
    exact h
  rw [List.getElem?_map]
  have hg : (gains (rsiDelta df col))[0]? = some 0 := by
    show ((rsiDelta df col).map _)[0]? = some 0
    rw [List.getElem?_map, hd]
    rfl
  rw [hg]
  rfl

/-- The loss series starts with 0, for the same reason. -/
theorem losses_map_some_zero (df : DataFrame) (col : String)
    (h : 0 < (df.getCol col).length) :
    ((losses (rsiDelta df col)).map some)[0]? = some (some 0) := by
  have hd : (rsiDelta df col)[0]? = some none := by
    unfold rsiDelta
    apply diffL_getElem?_zero
    rw [List.length_map, getCol_coerceColumn, List.length_map]
    exact h
  rw [List.getElem?_map]
  have hg : (losses (rsiDelta df col))[0]? = some 0 := by
    show ((rsiDelta df col).map _)[0]? = some 0
    rw [List.getElem?_map, hd]
    rfl
  rw [hg]
  rfl

/-- C2 (amended): an RSI output point at index `i` requires the rolling
average gain and loss to be defined at `i`, hence `i ≥ w − 1`; index 0
never appears (its 0/0 ratio is NaN and dropped).  But the claim's bound
`i ≥ w` is wrong: because `delta.where(delta > 0, 0)` maps the undefined
first delta to zero gain and loss, the first output point can already
occur at index `w − 1` (for `w ≥ 2`). -/
theorem rsi_first_index_amended (df : DataFrame) (w : Int) (col : String)
    (pts : List (Nat × ℚ)) (h : (calculate_rsi df w col).1 = some pts) :
    ∀ i v, (i, v) ∈ pts →
      (∃ g, (rsiAvgGain df w col)[i]? = some (some g)) ∧
      (∃ l, (rsiAvgLoss df w col)[i]? = some (some l)) ∧
      w.toNat - 1 ≤ i ∧ 1 ≤ i := by
  have hpts := calculate_rsi_some df w col pts h
  have hwpos := calculate_rsi_guard_pos df w col pts h
  intro i v hiv
  rw [hpts] at hiv
  obtain ⟨-, hg⟩ := mem_dropnaFrom _ 0 i v hiv
  rw [Nat.sub_zero, List.getElem?_zipWith] at hg
  rcases hga : (rsiAvgGain df w col)[i]? with _ | gOpt
  · rw [hga] at hg
    rcases hgb : (rsiAvgLoss df w col)[i]? with _ | lOpt <;> rw [hgb] at hg <;>
      exact absurd hg (by simp)
  · rw [hga] at hg
    rcases hgb : (rsiAvgLoss df w col)[i]? with _ | lOpt
    · rw [hgb] at hg
      exact absurd hg (by simp)
    · rw [hgb] at hg
      have hg2 : rsiPointO gOpt lOpt = some v := by
        have h' : some (rsiPointO gOpt lOpt) = some (some v) := hg
        injection h'
      rcases gOpt with _ | g
      · rw [show rsiPointO none lOpt = none from by cases lOpt <;> rfl] at hg2
        cases hg2
      rcases lOpt with _ | l
      · rw [show rsiPointO (some g) none = none from rfl] at hg2
        cases hg2
      refine ⟨⟨g, rfl⟩, ⟨l, rfl⟩, ?_, ?_⟩
      · have := rollingMean_defined_bound w.toNat _ i g hga
        omega
      · by_contra hi0
        have hi0' : i = 0 := by omega
        subst hi0'
        have hga' : (rollingMean w.toNat ((gains (rsiDelta df col)).map some))[0]?
            = some (some g) := hga
        have hgb' : (rollingMean w.toNat ((losses (rsiDelta df col)).map some))[0]?
            = some (some l) := hgb
        have hbound := rollingMean_defined_bound w.toNat _ 0 g hga'
        have hwt : w.toNat = 1 := by omega
        have hlen0 := rollingMean_index_lt w.toNat _ 0 _ hga'
        have hcollen : 0 < (df.getCol col).length := by
          rw [List.length_map, length_gains, length_rsiDelta] at hlen0
          exact hlen0
        have hg0 : g = 0 :=
          rollingMean_zero_index w.toNat _ g (gains_map_some_zero df col hcollen) hwt hga'
        have hl0 : l = 0 :=
          rollingMean_zero_index w.toNat _ l (losses_map_some_zero df col hcollen) hwt hgb'
        subst hg0
        subst hl0
        replace hg2 : (if (0 : ℚ) = 0 then (if (0 : ℚ) = 0 then none else some (100 : ℚ))
            else some (100 - 100 / (1 + 0 / 0))) = some v := hg2
        rw [if_pos rfl, if_pos rfl] at hg2
        cases hg2

/-- Witness for the amended C2 at the concrete frame, window 2, point at
index 1 = w − 1. -/
theorem rsi_first_index_amended_witness :
    (∃ g, (rsiAvgGain exampleFrame 2 "close")[1]? = some (some g)) ∧
      (∃ l, (rsiAvgLoss exampleFrame 2 "close")[1]? = some (some l)) ∧
      (2 : Int).toNat - 1 ≤ 1 ∧ 1 ≤ 1 :=
  rsi_first_index_amended exampleFrame 2 "close" [(1, 100), (2, 100)]
    rsi_example_eval 1 100 (List.mem_cons_self _ _)

/-- Witness for C9: two numeric closes with window 5 give empty output
series from both indicators. -/
theorem indicator_window_exceeds_length_empty_witness :
    (calculate_sma ⟨[("close", [Cell.num 1, Cell.num 2])]⟩ 5 "close").1 = some [] ∧
      (calculate_rsi ⟨[("close", [Cell.num 1, Cell.num 2])]⟩ 5 "close").1 = some [] :=
  indicator_window_exceeds_length_empty ⟨[("close", [Cell.num 1, Cell.num 2])]⟩ 5 "close"
    rfl (by decide) (by decide) (by decide) (by decide)

end StockAnalyser
